import Mathlib

/-!
Verification of the PROJECT_HIVE orchestration core.

This file is a shallow embedding, in Lean 4, of the orchestration core of the
PROJECT_HIVE repository:

* `core/graph_engine/state.py`  — the `NeuralState` run-state record;
* `core/swarm/consensus.py`     — `ConsensusStrategy` and `ConsensusEngine.evaluate`;
* `core/swarm/conversation.py`  — the swarm conversation log;
* `core/swarm/coordinator.py`   — `SwarmConfig` and `SwarmCoordinator.orchestrate`;
* `core/graph_engine/engine.py` — `Edge`, `NeuralGraphEngine` and its `execute` loop;
* `core/config.py`              — the `Settings` object consulted by the engine.

Python dictionaries are embedded as insertion-ordered association lists, Python
`int` as `Nat`/`Int`, and raised exceptions as `Except`/explicit outcome values.
Mutation of the single `NeuralState` object is embedded as explicit state
passing; since Python mutates the state in place, functions that can raise
return the mutated state alongside the outcome, exactly as the caller of the
Python code would observe it on the shared object.
-/

set_option maxRecDepth 8000

namespace Hive

/-- Universe of Python values stored in `NeuralState` dictionaries (`details`
of an error record, `artifacts` values, metadata values).  Python's `Any` is
modelled by the atomic values the orchestration core actually stores. -/
inductive PyVal where
  | vnone
  | vstr (s : String)
  | vint (n : Int)
  | vbool (b : Bool)
  deriving DecidableEq, Repr

/-- Python exceptions crossing the orchestration core's boundaries:
`AttributeError` (attribute lookup on the pydantic `Settings` object for a
field it does not declare), `KeyError`, `RuntimeError`/`ValueError`, and
arbitrary exceptions raised by a node's `execute`. -/
inductive PyErr where
  | attributeError (attr : String)
  | keyError (key : String)
  | runtimeError (msg : String)
  | valueError (msg : String)
  | nodeExc (msg : String)
  deriving DecidableEq, Repr

/-- `str(exc)` as used when an exception is logged into an error record. -/
def PyErr.toMessage : PyErr → String
  | .attributeError a => "'Settings' object has no attribute '" ++ a ++ "'"
  | .keyError k => k
  | .runtimeError m => m
  | .valueError m => m
  | .nodeExc m => m

/-- Python dict assignment `d[k] = v`: replaces the value at an existing key in
place (keys are unique, insertion order kept), appends a new key at the end. -/
def dictSet {α : Type} : List (String × α) → String → α → List (String × α)
  | [], k, v => [(k, v)]
  | p :: d, k, v => if p.1 == k then (k, v) :: d else p :: dictSet d k v

/-- Python `d.get(k)` / `d[k]` lookup, as an `Option`. -/
def dictGet {α : Type} : List (String × α) → String → Option α
  | [], _ => Option.none
  | p :: d, k => if p.1 == k then some p.2 else dictGet d k

/-- One entry of `NeuralState.messages` (`state.py`, `add_message`): the
`role`/`content` dict with its optional `name` and `metadata` keys. -/
structure Message where
  role : String
  content : String
  name : Option String
  metadata : Option (List (String × PyVal))
  deriving DecidableEq, Repr

/-- One entry of `NeuralState.errors` (`state.py`, `add_error`). -/
structure ErrorRecord where
  type : String
  message : String
  details : List (String × PyVal)
  deriving DecidableEq, Repr

/-- One entry of `NeuralState.artifacts_meta` (`state.py`, `add_artifact`). -/
structure ArtifactMeta where
  artifact_type : Option String
  metadata : List (String × PyVal)
  deriving DecidableEq, Repr

/-- `NeuralState` (`core/graph_engine/state.py`).  `run_id` is drawn from
`uuid4()` at construction; the embedding takes it as a parameter of the
constructor since its only specified property is that it is opaque and
immutable.  Python `float` budgets are embedded as rationals; no claim
inspects them. -/
structure NeuralState where
  run_id : String
  goal : String
  mode : String := "t0"
  tenant_id : Option String := Option.none
  messages : List Message := []
  errors : List ErrorRecord := []
  artifacts : List (String × PyVal) := []
  artifacts_meta : List (String × ArtifactMeta) := []
  step : Nat := 0
  budget : Rat := 10
  budget_used : Rat := 0
  deriving DecidableEq, Repr

/-- `NeuralState.next_step`. -/
def NeuralState.next_step (s : NeuralState) : NeuralState :=
  { s with step := s.step + 1 }

/-- `NeuralState.add_message`.  Python tests `if name:` / `if metadata:` for
truthiness, so an empty-string name or empty metadata dict is not stored. -/
def NeuralState.add_message (s : NeuralState) (role content : String)
    (name : Option String) (metadata : Option (List (String × PyVal))) : NeuralState :=
  let storedName := match name with
    | some n => if n == "" then Option.none else some n
    | Option.none => Option.none
  let storedMeta := match metadata with
    | some m => if m.isEmpty then Option.none else some m
    | Option.none => Option.none
  { s with messages := s.messages ++ [⟨role, content, storedName, storedMeta⟩] }

/-- `NeuralState.add_error`; `details or {}` stores `{}` for an absent or
empty details dict. -/
def NeuralState.add_error (s : NeuralState) (error_type message : String)
    (details : Option (List (String × PyVal))) : NeuralState :=
  { s with errors := s.errors ++ [⟨error_type, message, details.getD []⟩] }

/-- `NeuralState.add_artifact`: unconditional write into `artifacts`;
`artifacts_meta` is written only when `artifact_type` or `metadata` is
supplied (`is not None`), with `metadata or {}` defaulting to the empty
dict. -/
def NeuralState.add_artifact (s : NeuralState) (key : String) (value : PyVal)
    (artifact_type : Option String) (metadata : Option (List (String × PyVal))) :
    NeuralState :=
  let s1 := { s with artifacts := dictSet s.artifacts key value }
  if artifact_type.isSome || metadata.isSome then
    { s1 with artifacts_meta := dictSet s1.artifacts_meta key ⟨artifact_type, metadata.getD []⟩ }
  else s1

/-- `NeuralState.get_artifact`. -/
def NeuralState.get_artifact (s : NeuralState) (key : String) (default : PyVal) : PyVal :=
  (dictGet s.artifacts key).getD default

/-- `ConsensusStrategy` (`core/swarm/consensus.py`). -/
inductive ConsensusStrategy where
  | MAJORITY_VOTE
  | UNANIMITY
  | MANAGER_DECIDES
  deriving DecidableEq, Repr

namespace ConsensusEngine

/-- `ConsensusEngine.evaluate` (`core/swarm/consensus.py`).  The source
compares `(positive / total) > 0.5` with Python float division of two
non-negative ints; that comparison is exactly the rational comparison
`2 * positive > total` (float division is correctly rounded and exact here
for every realizable vote list), which is how it is rendered.  The final
`return` line of the source is the fall-through taken for
`MANAGER_DECIDES`. -/
def evaluate (strategy : ConsensusStrategy) (votes : List String) : Bool :=
  if votes.isEmpty then false
  else
    let total := votes.length
    let positive := votes.count "approve" + votes.count "pass" + votes.count "success"
    match strategy with
    | .MAJORITY_VOTE => decide (2 * positive > total)
    | .UNANIMITY => decide (positive = total)
    | .MANAGER_DECIDES => decide (2 * positive > total)

end ConsensusEngine

/-- Spec-side acceptance vocabulary: "a vote counts as positive if it is one
of a small fixed acceptance vocabulary (approve, pass, success)". -/
def isPositiveVote (v : String) : Bool :=
  v == "approve" || v == "pass" || v == "success"

theorem count_sum_eq_filter_positive (votes : List String) :
    votes.count "approve" + votes.count "pass" + votes.count "success" =
      (votes.filter isPositiveVote).length := by
  induction votes with
  | nil => simp
  | cons v rest ih =>
    by_cases ha : v = "approve"
    · subst ha
      simp [List.count_cons, isPositiveVote, ih.symm]
      omega
    · by_cases hp : v = "pass"
      · subst hp
        simp [List.count_cons, isPositiveVote, ih.symm]
        omega
      · by_cases hs : v = "success"
        · subst hs
          simp [List.count_cons, isPositiveVote, ih.symm]
          omega
        · have hpos : isPositiveVote v = false := by
            simp [isPositiveVote, ha, hp, hs]
          simp [List.count_cons, ha, hp, hs, hpos, ih]

/-- Claim C6: `ConsensusEngine.evaluate` counts a vote as positive exactly
when it equals "approve", "pass" or "success"; `MAJORITY_VOTE` holds iff the
positives are a strict majority (a 50/50 split fails), `UNANIMITY` iff every
vote is positive on a non-empty list, and the empty vote list fails under
every strategy. -/
theorem evaluate_characterization :
    (∀ votes : List String,
        ConsensusEngine.evaluate .MAJORITY_VOTE votes = true ↔
          2 * (votes.filter isPositiveVote).length > votes.length) ∧
    (∀ votes : List String,
        ConsensusEngine.evaluate .UNANIMITY votes = true ↔
          votes ≠ [] ∧ (votes.filter isPositiveVote).length = votes.length) ∧
    (∀ strategy : ConsensusStrategy, ConsensusEngine.evaluate strategy [] = false) := by
  refine ⟨?_, ?_, ?_⟩
  · intro votes
    cases votes with
    | nil => simp [ConsensusEngine.evaluate]
    | cons v rest =>
      simp [ConsensusEngine.evaluate, count_sum_eq_filter_positive]
  · intro votes
    cases votes with
    | nil => simp [ConsensusEngine.evaluate]
    | cons v rest =>
      simp [ConsensusEngine.evaluate, count_sum_eq_filter_positive]
  · intro strategy
    cases strategy <;> simp [ConsensusEngine.evaluate]

/-- Claim C7: the `MANAGER_DECIDES` strategy is extensionally equal to
`MAJORITY_VOTE`: the source's fall-through return re-evaluates the strict
majority condition, distinguishing no voter. -/
theorem manager_decides_eq_majority :
    ∀ votes : List String,
      ConsensusEngine.evaluate .MANAGER_DECIDES votes =
        ConsensusEngine.evaluate .MAJORITY_VOTE votes := by
  intro votes
  cases votes <;> rfl

theorem dictGet_dictSet_self {α : Type} (d : List (String × α)) (k : String) (v : α) :
    dictGet (dictSet d k v) k = some v := by
  induction d with
  | nil => simp [dictSet, dictGet]
  | cons p rest ih =>
    by_cases h : p.1 == k
    · simp [dictSet, dictGet, h]
    · simp [dictSet, dictGet, h, ih]

theorem dictGet_dictSet_other {α : Type} (d : List (String × α)) (k k' : String) (v : α)
    (hne : k' ≠ k) : dictGet (dictSet d k v) k' = dictGet d k' := by
  induction d with
  | nil =>
    have : (k == k') = false := by
      simp [beq_iff_eq]
      exact fun h => hne h.symm
    simp [dictSet, dictGet, this]
  | cons p rest ih =>
    by_cases h : p.1 == k
    · have hk : p.1 = k := by simpa [beq_iff_eq] using h
      have : (k == k') = false := by
        simp [beq_iff_eq]
        exact fun hh => hne hh.symm
      simp [dictSet, dictGet, h, this, hk]
    · simp [dictSet, dictGet, h, ih]

/-- Claim C9: writing the same artifact key twice (any optional type/metadata
arguments) leaves the key at the second value (full replacement), and neither
write changes `errors`, `messages`, `step`, `run_id`, `goal` or any other
artifact key. -/
theorem add_artifact_overwrite (s : NeuralState) (k : String) (v1 v2 : PyVal)
    (t1 t2 : Option String) (m1 m2 : Option (List (String × PyVal)))
    (hne : v1 ≠ v2) :
    dictGet ((s.add_artifact k v1 t1 m1).add_artifact k v2 t2 m2).artifacts k = some v2 ∧
    some v2 ≠ some v1 ∧
    ((s.add_artifact k v1 t1 m1).add_artifact k v2 t2 m2).errors = s.errors ∧
    ((s.add_artifact k v1 t1 m1).add_artifact k v2 t2 m2).messages = s.messages ∧
    ((s.add_artifact k v1 t1 m1).add_artifact k v2 t2 m2).step = s.step ∧
    ((s.add_artifact k v1 t1 m1).add_artifact k v2 t2 m2).run_id = s.run_id ∧
    ((s.add_artifact k v1 t1 m1).add_artifact k v2 t2 m2).goal = s.goal ∧
    ∀ k', k' ≠ k →
      dictGet ((s.add_artifact k v1 t1 m1).add_artifact k v2 t2 m2).artifacts k' =
        dictGet s.artifacts k' := by
  have hart : ∀ (t : NeuralState) (key : String) (v : PyVal) (ty : Option String)
      (md : Option (List (String × PyVal))),
      (t.add_artifact key v ty md).artifacts = dictSet t.artifacts key v ∧
      (t.add_artifact key v ty md).errors = t.errors ∧
      (t.add_artifact key v ty md).messages = t.messages ∧
      (t.add_artifact key v ty md).step = t.step ∧
      (t.add_artifact key v ty md).run_id = t.run_id ∧
      (t.add_artifact key v ty md).goal = t.goal := by
    intro t key v ty md
    unfold NeuralState.add_artifact
    by_cases h : ty.isSome || md.isSome <;> simp [h]
  obtain ⟨ha1, he1, hm1, hs1, hr1, hg1⟩ := hart s k v1 t1 m1
  obtain ⟨ha2, he2, hm2, hs2, hr2, hg2⟩ := hart (s.add_artifact k v1 t1 m1) k v2 t2 m2
  refine ⟨?_, by simp [Ne.symm hne], by rw [he2, he1], by rw [hm2, hm1],
    by rw [hs2, hs1], by rw [hr2, hr1], by rw [hg2, hg1], ?_⟩
  · rw [ha2, dictGet_dictSet_self]
  · intro k' hk'
    rw [ha2, dictGet_dictSet_other _ _ _ _ hk', ha1, dictGet_dictSet_other _ _ _ _ hk']

/-- Closed witness for `add_artifact_overwrite` at a concrete state and pair
of distinct values. -/
theorem add_artifact_overwrite_witness :
    dictGet (((⟨"rid", "g", "t0", Option.none, [], [], [], [], 0, 10, 0⟩ :
        NeuralState).add_artifact "k" (.vint 1) Option.none Option.none).add_artifact
        "k" (.vint 2) Option.none Option.none).artifacts "k" = some (.vint 2) :=
  (add_artifact_overwrite ⟨"rid", "g", "t0", Option.none, [], [], [], [], 0, 10, 0⟩
    "k" (.vint 1) (.vint 2) Option.none Option.none Option.none Option.none
    (by decide)).1

/-- Claim C10: `add_artifact` with neither `artifact_type` nor `metadata`
leaves `artifacts_meta` unchanged; overwriting a key's value without new
type/metadata retains the key's previous `artifacts_meta` entry while the
value itself is replaced. -/
theorem add_artifact_meta_frame :
    (∀ (s : NeuralState) (k : String) (v : PyVal),
        (s.add_artifact k v Option.none Option.none).artifacts_meta = s.artifacts_meta) ∧
    (∀ (s : NeuralState) (k : String) (v1 v2 : PyVal) (t : String)
        (m : List (String × PyVal)),
        dictGet ((s.add_artifact k v1 (some t) (some m)).add_artifact
            k v2 Option.none Option.none).artifacts_meta k = some ⟨some t, m⟩ ∧
        dictGet ((s.add_artifact k v1 (some t) (some m)).add_artifact
            k v2 Option.none Option.none).artifacts k = some v2) := by
  constructor
  · intro s k v
    simp [NeuralState.add_artifact]
  · intro s k v1 v2 t m
    constructor
    · simp [NeuralState.add_artifact, dictGet_dictSet_self]
    · simp [NeuralState.add_artifact, dictGet_dictSet_self]

/-- `Settings` (`core/config.py`): the fields the orchestration core reads.
`MAX_RETRIES` defaults to 3, `MAX_SWARM_ROUNDS` to 5; the class declares no
`MAX_EXECUTION_TIME` field. -/
structure Settings where
  MAX_TOKENS : Nat := 4000
  MAX_RETRIES : Nat := 3
  TIMEOUT : Nat := 60
  MAX_SWARM_ROUNDS : Nat := 5
  deriving DecidableEq, Repr

/-- The module-level `settings = Settings()` instance of `core/config.py`. -/
def settings : Settings := {}

/-- Attribute access `getattr(settings, name)` for an integer-valued setting.
`Settings` is a pydantic model whose config ignores extra inputs, so accessing
any attribute it does not declare raises `AttributeError`; in particular
`settings.MAX_EXECUTION_TIME` (read by `NeuralGraphEngine.execute`) does. -/
def Settings.intAttr (s : Settings) (name : String) : Except PyErr Nat :=
  if name == "MAX_TOKENS" then .ok s.MAX_TOKENS
  else if name == "MAX_RETRIES" then .ok s.MAX_RETRIES
  else if name == "TIMEOUT" then .ok s.TIMEOUT
  else if name == "MAX_SWARM_ROUNDS" then .ok s.MAX_SWARM_ROUNDS
  else .error (.attributeError name)

/-- `BaseNode` (`core/graph_engine/node.py`): the single capability is
`execute : state → state`, which may raise. -/
structure BaseNode where
  name : String
  execute : NeuralState → Except PyErr NeuralState

/-- `SwarmMessage` (`core/swarm/conversation.py`).  The wall-clock `timestamp`
field is observable by no claim and is omitted from the embedding. -/
structure SwarmMessage where
  role : String
  content : String
  agent_name : String
  metadata : List (String × PyVal)
  deriving DecidableEq, Repr

/-- `SwarmConversation.history`: the append-only conversation log. -/
abbrev SwarmConversation := List SwarmMessage

/-- `SwarmConversation.add`; `metadata or {}` stores the empty dict when the
argument is absent. -/
def SwarmConversation.add (h : SwarmConversation) (role content agent_name : String)
    (metadata : Option (List (String × PyVal))) : SwarmConversation :=
  h ++ [⟨role, content, agent_name, metadata.getD []⟩]

/-- `SwarmConfig` (`core/swarm/coordinator.py`), with its source defaults. -/
structure SwarmConfig where
  agents : List BaseNode
  strategy : ConsensusStrategy := .MAJORITY_VOTE
  max_rounds : Nat := settings.MAX_SWARM_ROUNDS

/-- Python `str.lower`, character by character; the coordinator only compares
the result against ASCII tokens, on which `Char.toLower` agrees with it. -/
def pyLower (s : String) : String := ⟨s.toList.map Char.toLower⟩

/-- Python substring test `token in content.lower()`. -/
def containsToken (content token : String) : Bool :=
  ((pyLower content).toList.tails).any (fun t => token.toList.isPrefixOf t)

/-- The coordinator's recognized success substrings (`coordinator.py`). -/
def successTokens : List String := ["tests passed", "syntax ok", "fixed", "success"]

/-- The coordinator's vote derivation: "success" when the content carries a
recognized token, "pass" otherwise. -/
def deriveVote (content : String) : String :=
  if successTokens.any (fun k => containsToken content k) then "success" else "pass"

/-- `state.messages[-1] if state.messages else {}` followed by
`.get("content", "")`. -/
def lastContent (s : NeuralState) : String :=
  match s.messages.getLast? with
  | some m => m.content
  | Option.none => ""

/-- The inner per-agent loop of one round of `SwarmCoordinator.orchestrate`:
run the agent (a raised exception propagates), read the last message's
content, log it to the conversation tagged with the round number, and append
the derived vote. -/
def swarmRound (round_no : Nat) :
    List BaseNode → NeuralState → SwarmConversation → List String →
      Except PyErr (NeuralState × SwarmConversation × List String)
  | [], state, conv, votes => .ok (state, conv, votes)
  | agent :: rest, state, conv, votes =>
    match agent.execute state with
    | .error e => .error e
    | .ok state' =>
      let content := lastContent state'
      let conv' := conv.add "assistant" content agent.name (some [("round", .vint round_no)])
      swarmRound round_no rest state' conv' (votes ++ [deriveVote content])

/-- The round loop `for round_no in range(1, max_rounds + 1)` of
`orchestrate`: votes reset each round, the conversation persists; an early
return fires when `ConsensusEngine.evaluate` approves the round's votes,
otherwise the state is returned as-is after the last round. -/
def orchestrateLoop (cfg : SwarmConfig) :
    Nat → Nat → NeuralState → SwarmConversation →
      Except PyErr (NeuralState × SwarmConversation)
  | 0, _, state, conv => .ok (state, conv)
  | roundsLeft + 1, round_no, state, conv =>
    match swarmRound round_no cfg.agents state conv [] with
    | .error e => .error e
    | .ok (state', conv', votes) =>
      if ConsensusEngine.evaluate cfg.strategy votes then .ok (state', conv')
      else orchestrateLoop cfg roundsLeft (round_no + 1) state' conv'

/-- `SwarmCoordinator.orchestrate` (`core/swarm/coordinator.py`).  The
coordinator's conversation starts fresh in `__init__` and is returned
alongside the state so that per-invocation observations (who ran, in which
round) stay visible. -/
def SwarmCoordinator.orchestrate (cfg : SwarmConfig) (state : NeuralState) :
    Except PyErr (NeuralState × SwarmConversation) :=
  orchestrateLoop cfg cfg.max_rounds 1 state []

theorem swarmRound_ok (round_no : Nat) (agents : List BaseNode) :
    ∀ (s : NeuralState) (conv : SwarmConversation) (votes : List String),
    (∀ a ∈ agents, ∀ t, (a.execute t).isOk = true) →
    ∃ s' newConv newVotes,
      swarmRound round_no agents s conv votes = .ok (s', conv ++ newConv, votes ++ newVotes) ∧
      newVotes.length = agents.length ∧
      (∀ v ∈ newVotes, v = "success" ∨ v = "pass") ∧
      newConv.map SwarmMessage.agent_name = agents.map BaseNode.name ∧
      (∀ m ∈ newConv, m.metadata = [("round", .vint round_no)]) := by
  induction agents with
  | nil =>
    intro s conv votes _
    exact ⟨s, [], [], by simp [swarmRound], by simp, by simp, by simp, by simp⟩
  | cons a rest ih =>
    intro s conv votes hok
    have ha : (a.execute s).isOk = true := hok a (by simp) s
    obtain ⟨s₂, hs₂⟩ : ∃ s₂, a.execute s = .ok s₂ := by
      cases hexec : a.execute s with
      | ok v => exact ⟨v, rfl⟩
      | error e => rw [hexec] at ha; simp [Except.isOk, Except.toBool] at ha
    have hrest : ∀ b ∈ rest, ∀ t, (b.execute t).isOk = true := by
      intro b hb t
      exact hok b (by simp [hb]) t
    obtain ⟨s', newConv, newVotes, heq, hlen, hv, hnames, hmeta⟩ :=
      ih s₂ (conv.add "assistant" (lastContent s₂) a.name (some [("round", .vint round_no)]))
        (votes ++ [deriveVote (lastContent s₂)]) hrest
    refine ⟨s', ⟨"assistant", lastContent s₂, a.name, [("round", .vint round_no)]⟩ :: newConv,
      deriveVote (lastContent s₂) :: newVotes, ?_, by simp [hlen], ?_, by simp [hnames], ?_⟩
    · simp only [swarmRound, hs₂]
      rw [heq]
      simp [SwarmConversation.add]
    · intro v hv'
      rcases List.mem_cons.1 hv' with h | h
      · subst h
        unfold deriveVote
        by_cases hc : successTokens.any (fun k => containsToken (lastContent s₂) k) <;>
          simp [hc]
      · exact hv v h
    · intro m hm
      rcases List.mem_cons.1 hm with h | h
      · subst h; rfl
      · exact hmeta m h

theorem count_sum_of_all_positive (votes : List String)
    (hv : ∀ v ∈ votes, v = "success" ∨ v = "pass") :
    votes.count "approve" + votes.count "pass" + votes.count "success" = votes.length := by
  induction votes with
  | nil => simp
  | cons v rest ih =>
    have hrest := ih (fun w hw => hv w (by simp [hw]))
    rcases hv v (by simp) with h | h
    all_goals
      subst h
      simp [List.count_cons, hrest.symm]
      omega

theorem all_positive_evaluate (strategy : ConsensusStrategy) (votes : List String)
    (hne : votes ≠ []) (hv : ∀ v ∈ votes, v = "success" ∨ v = "pass")
    (hstrat : strategy = .MAJORITY_VOTE ∨ strategy = .UNANIMITY) :
    ConsensusEngine.evaluate strategy votes = true := by
  have hcount := count_sum_of_all_positive votes hv
  have hlen : 0 < votes.length := List.length_pos.2 hne
  rcases hstrat with h | h
  all_goals
    subst h
    simp [ConsensusEngine.evaluate, hne, hcount]
  omega

/-- Claim C2: every vote `orchestrate` derives is "success" (recognized token
in the last message) or "pass" (every other case), both of which
`ConsensusEngine` counts positive; hence for a non-empty agent list under
`MAJORITY_VOTE` or `UNANIMITY`, if no agent raises, consensus is reached at
the end of round 1 and `orchestrate` returns exactly round 1's state and
conversation: each agent invoked once, in list order, all entries tagged
round 1. -/
theorem orchestrate_one_round (cfg : SwarmConfig) (s : NeuralState)
    (hagents : cfg.agents ≠ [])
    (hrounds : 1 ≤ cfg.max_rounds)
    (hstrat : cfg.strategy = .MAJORITY_VOTE ∨ cfg.strategy = .UNANIMITY)
    (hok : ∀ a ∈ cfg.agents, ∀ t, (a.execute t).isOk = true) :
    ∃ s' conv votes,
      swarmRound 1 cfg.agents s [] [] = .ok (s', conv, votes) ∧
      SwarmCoordinator.orchestrate cfg s = .ok (s', conv) ∧
      (∀ v ∈ votes, v = "success" ∨ v = "pass") ∧
      ConsensusEngine.evaluate cfg.strategy votes = true ∧
      votes.length = cfg.agents.length ∧
      conv.map SwarmMessage.agent_name = cfg.agents.map BaseNode.name ∧
      (∀ m ∈ conv, m.metadata = [("round", .vint 1)]) := by
  obtain ⟨s', newConv, newVotes, heq, hlen, hv, hnames, hmeta⟩ :=
    swarmRound_ok 1 cfg.agents s [] [] hok
  simp only [List.nil_append] at heq
  have hvne : newVotes ≠ [] := by
    intro h
    rw [h] at hlen
    exact hagents (List.eq_nil_of_length_eq_zero hlen.symm)
  have heval : ConsensusEngine.evaluate cfg.strategy newVotes = true :=
    all_positive_evaluate cfg.strategy newVotes hvne hv hstrat
  obtain ⟨k, hk⟩ : ∃ k, cfg.max_rounds = k + 1 := ⟨cfg.max_rounds - 1, by omega⟩
  refine ⟨s', newConv, newVotes, heq, ?_, hv, heval, hlen, hnames, hmeta⟩
  unfold SwarmCoordinator.orchestrate
  rw [hk]
  simp only [orchestrateLoop, heq, heval, if_true]

/-- An agent that reports progress without any recognized success token. -/
def demoAgent : BaseNode :=
  ⟨"coder", fun s => .ok (s.add_message "assistant" "working on it" Option.none Option.none)⟩

/-- A concrete fresh run-state (its `run_id` standing for the drawn uuid). -/
def demoState : NeuralState :=
  ⟨"rid", "goal", "t0", Option.none, [], [], [], [], 0, 10, 0⟩

/-- Closed witness for `orchestrate_one_round`: one non-raising agent, default
strategy, 5 rounds allowed, one round run. -/
theorem orchestrate_one_round_witness :
    ∃ s' conv votes,
      swarmRound 1 (SwarmConfig.mk [demoAgent] .MAJORITY_VOTE 5).agents demoState [] [] =
        .ok (s', conv, votes) ∧
      SwarmCoordinator.orchestrate (SwarmConfig.mk [demoAgent] .MAJORITY_VOTE 5) demoState =
        .ok (s', conv) ∧
      (∀ v ∈ votes, v = "success" ∨ v = "pass") ∧
      ConsensusEngine.evaluate (SwarmConfig.mk [demoAgent] .MAJORITY_VOTE 5).strategy votes
        = true ∧
      votes.length = (SwarmConfig.mk [demoAgent] .MAJORITY_VOTE 5).agents.length ∧
      conv.map SwarmMessage.agent_name =
        (SwarmConfig.mk [demoAgent] .MAJORITY_VOTE 5).agents.map BaseNode.name ∧
      (∀ m ∈ conv, m.metadata = [("round", .vint 1)]) :=
  orchestrate_one_round (SwarmConfig.mk [demoAgent] .MAJORITY_VOTE 5) demoState
    (by simp) (by simp) (Or.inl rfl)
    (by
      intro a ha t
      simp only [List.mem_singleton] at ha
      subst ha
      simp [demoAgent, Except.isOk, Except.toBool])

/-- An agent whose output never contains a recognized success token. -/
def stuckAgent : BaseNode :=
  ⟨"fixer", fun s => .ok (s.add_message "assistant" "no luck" Option.none Option.none)⟩

/-- Claim C1 evaluated on the code at a failing input: one agent whose only
output is "no luck" (no recognized success token), `max_rounds = 3`,
`MAJORITY_VOTE`.  The spec's exhaustion property demands 3 full rounds; the
code returns after round 1 with a single agent invocation, because the
non-success vote "pass" is itself in `ConsensusEngine`'s positive
vocabulary. -/
theorem swarm_exhaustion_fails :
    SwarmCoordinator.orchestrate (SwarmConfig.mk [stuckAgent] .MAJORITY_VOTE 3) demoState =
      .ok (demoState.add_message "assistant" "no luck" Option.none Option.none,
        [⟨"assistant", "no luck", "fixer", [("round", .vint 1)]⟩]) := by
  rfl

/-- `Edge` (`core/graph_engine/engine.py`). -/
structure Edge where
  source : String
  target : String
  condition : Option (NeuralState → Bool) := Option.none

/-- `NeuralGraphEngine` (`core/graph_engine/engine.py`): the `_nodes`
registry (an insertion-ordered dict), the `_edges` list in registration
order, the optional `_start` name and the retry ceiling `_max_retries`. -/
structure NeuralGraphEngine where
  nodes : List (String × BaseNode)
  edges : List Edge
  start : Option String
  max_retries : Nat

/-- `NeuralGraphEngine.__init__`: `max_retries or settings.MAX_RETRIES` is a
truthiness test, so passing 0 also falls back to the settings default. -/
def NeuralGraphEngine.init (max_retries : Option Nat) : NeuralGraphEngine :=
  ⟨[], [], Option.none,
    match max_retries with
    | some m => if m == 0 then settings.MAX_RETRIES else m
    | Option.none => settings.MAX_RETRIES⟩

/-- `NeuralGraphEngine.add_node`: `ValueError` on a duplicate name; the first
node added becomes the start node. -/
def NeuralGraphEngine.add_node (g : NeuralGraphEngine) (node : BaseNode) :
    Except PyErr NeuralGraphEngine :=
  if g.nodes.any (fun p => p.1 == node.name) then
    .error (.valueError ("Node already exists: " ++ node.name))
  else
    .ok { g with
      nodes := g.nodes ++ [(node.name, node)],
      start := match g.start with
        | some st => some st
        | Option.none => some node.name }

/-- `NeuralGraphEngine.add_edge`: `KeyError` unless both endpoints are
registered; edges accumulate in registration order. -/
def NeuralGraphEngine.add_edge (g : NeuralGraphEngine) (source target : String)
    (condition : Option (NeuralState → Bool)) : Except PyErr NeuralGraphEngine :=
  if g.nodes.any (fun p => p.1 == source) && g.nodes.any (fun p => p.1 == target) then
    .ok { g with edges := g.edges ++ [⟨source, target, condition⟩] }
  else
    .error (.keyError "Both source and target must be registered before adding an edge.")

/-- `NeuralGraphEngine.set_start`. -/
def NeuralGraphEngine.set_start (g : NeuralGraphEngine) (name : String) :
    Except PyErr NeuralGraphEngine :=
  if g.nodes.any (fun p => p.1 == name) then .ok { g with start := some name }
  else .error (.keyError ("Unknown node: " ++ name))

/-- Outcome of `NeuralGraphEngine.execute`: the Python method either returns
the state or lets an exception propagate; the mutated state stays observable
on the caller's object in both cases, so the embedding pairs the state with
the outcome.  `fuelOut` is an artifact of embedding the `while` loop with
fuel; `execute` supplies fuel `nodes.length + 1`, enough because every
iteration either stops or visits a fresh registered node. -/
inductive ExecOutcome where
  | returned
  | raised (e : PyErr)
  | fuelOut
  deriving DecidableEq, Repr

/-- The per-node retry loop of `execute`: `retries` starts at 0 and the loop
runs while `retries <= max_retries`; `next_step` fires before each
invocation; a failing attempt appends a `node_execution` error carrying the
node name and current retry count, then re-raises once `retries` would
exceed `max_retries`.  `remaining` is `max_retries - retries`, the number of
attempts still allowed after the current one. -/
def attemptNode (node : BaseNode) (nname : String) :
    Nat → Nat → NeuralState → NeuralState × Option PyErr
  | 0, retries, s =>
    match node.execute s.next_step with
    | .ok s2 => (s2, Option.none)
    | .error e =>
      (s.next_step.add_error "node_execution" e.toMessage
        (some [("node", .vstr nname), ("retries", .vint retries)]), some e)
  | remaining + 1, retries, s =>
    match node.execute s.next_step with
    | .ok s2 => (s2, Option.none)
    | .error e =>
      attemptNode node nname remaining (retries + 1)
        (s.next_step.add_error "node_execution" e.toMessage
          (some [("node", .vstr nname), ("retries", .vint retries)]))

/-- The next-node scan of `execute`: first edge in registration order whose
source is the current node and whose condition is absent or true on the
current state. -/
def selectNext (edges : List Edge) (current : String) (s : NeuralState) : Option String :=
  match edges with
  | [] => Option.none
  | e :: rest =>
    if e.source == current &&
        (match e.condition with
          | Option.none => true
          | some c => c s) then
      some e.target
    else selectNext rest current s

/-- The `while current is not None` loop of `execute`: cycle check against
the visited set, node lookup (`KeyError` on an unregistered name), the retry
loop, then the wall-clock ceiling test
`loop.time() - start_time > settings.MAX_EXECUTION_TIME`, whose right-hand
attribute access is evaluated through `Settings.intAttr`.  `elapsed iter`
stands for the reading `loop.time() - start_time` at the `iter`-th check. -/
def execLoop (g : NeuralGraphEngine) (elapsed : Nat → Rat) :
    Nat → Option String → List String → Nat → NeuralState → NeuralState × ExecOutcome
  | _, Option.none, _, _, s => (s, .returned)
  | 0, some _, _, _, s => (s, .fuelOut)
  | fuel + 1, some current, visited, iter, s =>
    if visited.contains current then
      (s.add_error "graph_cycle" ("Cycle detected at node " ++ current) Option.none, .returned)
    else
      match dictGet g.nodes current with
      | Option.none => (s, .raised (.keyError current))
      | some node =>
        match attemptNode node current g.max_retries 0 s with
        | (s1, some e) => (s1, .raised e)
        | (s1, Option.none) =>
          match settings.intAttr "MAX_EXECUTION_TIME" with
          | .error e => (s1, .raised e)
          | .ok limit =>
            if elapsed iter > (limit : Rat) then
              (s1.add_error "graph_timeout" "Max execution time exceeded." Option.none,
                .returned)
            else
              execLoop g elapsed fuel (selectNext g.edges current s1)
                (visited ++ [current]) (iter + 1) s1

/-- `NeuralGraphEngine.execute` (`core/graph_engine/engine.py`): raises
`RuntimeError` without a start node, otherwise runs the traversal loop.
Claims about `execute` below are proved for every wall-clock oracle. -/
def NeuralGraphEngine.execute (g : NeuralGraphEngine) (elapsed : Nat → Rat)
    (s : NeuralState) : NeuralState × ExecOutcome :=
  match g.start with
  | Option.none => (s, .raised (.runtimeError "No start node configured."))
  | some st => execLoop g elapsed (g.nodes.length + 1) (some st) [] 0 s

/-- A node that records that it ran into an artifact and succeeds. -/
def okNode : BaseNode :=
  ⟨"a", fun s => .ok (s.add_artifact "a_ran" (.vbool true) Option.none Option.none)⟩

/-- A second recording node, to observe whether the traversal ever reaches a
successor. -/
def okNodeB : BaseNode :=
  ⟨"b", fun s => .ok (s.add_artifact "b_ran" (.vbool true) Option.none Option.none)⟩

/-- One node with a self-loop edge: a cycle of length 1 at the start node. -/
def selfLoopEngine : NeuralGraphEngine :=
  ⟨[("a", okNode)], [⟨"a", "a", Option.none⟩], some "a", 3⟩

/-- Two nodes with the unconditioned edge cycle a → b → a of length 2. -/
def cycleEngine : NeuralGraphEngine :=
  ⟨[("a", okNode), ("b", okNodeB)],
    [⟨"a", "b", Option.none⟩, ⟨"b", "a", Option.none⟩], some "a", 3⟩

/-- Two nodes with the single unconditioned edge a → b. -/
def chainEngine : NeuralGraphEngine :=
  ⟨[("a", okNode), ("b", okNodeB)], [⟨"a", "b", Option.none⟩], some "a", 3⟩

/-- Claim C3 evaluated on the code at a failing input: a graph whose start
node has a self-loop.  For every wall-clock oracle, `execute` raises
`AttributeError` at the very first timeout check (`Settings` declares no
`MAX_EXECUTION_TIME` attribute) and appends no error record at all — neither
the claimed `graph_cycle` nor `graph_timeout` handling is reachable, and the
exception is not a retry-exhaustion failure. -/
theorem execute_raises_attribute_error (elapsed : Nat → Rat) :
    selfLoopEngine.execute elapsed demoState =
      (demoState.next_step.add_artifact "a_ran" (.vbool true) Option.none Option.none,
        .raised (.attributeError "MAX_EXECUTION_TIME")) ∧
    (selfLoopEngine.execute elapsed demoState).1.errors = [] :=
  ⟨rfl, rfl⟩

/-- Claim C5 evaluated on the code at a failing input: the cycle a → b → a of
length 2, all conditions absent, all nodes succeeding.  For every wall-clock
oracle the traversal stops after the first node with a raised
`AttributeError`; the number of `graph_cycle` error records is 0, not the
claimed 1. -/
theorem cycle_error_never_recorded (elapsed : Nat → Rat) :
    cycleEngine.execute elapsed demoState =
      (demoState.next_step.add_artifact "a_ran" (.vbool true) Option.none Option.none,
        .raised (.attributeError "MAX_EXECUTION_TIME")) ∧
    ((cycleEngine.execute elapsed demoState).1.errors.filter
        (fun e => e.type == "graph_cycle")).length = 0 :=
  ⟨rfl, rfl⟩

/-- Claim C8 evaluated on the code at a failing input: registered nodes a, b
and the single unconditioned edge a → b.  For every wall-clock oracle,
`execute` raises before the successor scan ever runs: node b's mutation never
happens, so no "first satisfied edge" is ever taken. -/
theorem successor_scan_unreachable (elapsed : Nat → Rat) :
    chainEngine.execute elapsed demoState =
      (demoState.next_step.add_artifact "a_ran" (.vbool true) Option.none Option.none,
        .raised (.attributeError "MAX_EXECUTION_TIME")) ∧
    dictGet (chainEngine.execute elapsed demoState).1.artifacts "b_ran" = Option.none :=
  ⟨rfl, rfl⟩

/-- A node that raises on its first `r` invocations and succeeds on
invocation `r + 1`, applying mutation `f`.  The engine increments `step`
before every invocation, so a run starting at `step = s0` shows the node
`step = s0 + i` on its i-th invocation; raising exactly when
`step ≤ s0 + r` models a test double that fails its first `r` calls. -/
def flakyNode (r s0 : Nat) (f : NeuralState → NeuralState) : BaseNode :=
  ⟨"n", fun s => if s.step ≤ s0 + r then .error (.nodeExc "boom") else .ok (f s)⟩

/-- The error record `execute` appends for the failed attempt with retry
count `i` of the flaky node. -/
def nodeExecutionRecord (i : Nat) : ErrorRecord :=
  ⟨"node_execution", "boom", [("node", .vstr "n"), ("retries", .vint i)]⟩

theorem flakyNode_execute_fails (r s0 : Nat) (f : NeuralState → NeuralState)
    (t : NeuralState) (h : t.step ≤ s0 + r) :
    (flakyNode r s0 f).execute t = .error (.nodeExc "boom") := by
  simp [flakyNode, h]

theorem flakyNode_execute_ok (r s0 : Nat) (f : NeuralState → NeuralState)
    (t : NeuralState) (h : ¬ t.step ≤ s0 + r) :
    (flakyNode r s0 f).execute t = .ok (f t) := by
  simp [flakyNode, h]

theorem attemptNode_flaky_succeeds (r s0 : Nat) (f : NeuralState → NeuralState) :
    ∀ (d rem ret : Nat) (s : NeuralState), ret + d = r → d ≤ rem → s.step = s0 + ret →
      attemptNode (flakyNode r s0 f) "n" rem ret s =
        (f { s with step := s0 + r + 1
                    errors := s.errors ++ (List.range' ret d).map nodeExecutionRecord },
          Option.none) := by
  intro d
  induction d with
  | zero =>
    intro rem ret s hret hle hstep
    have hrr : r = ret := by omega
    subst hrr
    have hexec := flakyNode_execute_ok r s0 f s.next_step
      (by simp only [NeuralState.next_step]; omega)
    cases rem with
    | zero =>
      simp only [attemptNode, hexec]
      simp [NeuralState.next_step, hstep, List.range']
    | succ rem' =>
      simp only [attemptNode, hexec]
      simp [NeuralState.next_step, hstep, List.range']
  | succ d ih =>
    intro rem ret s hret hle hstep
    obtain ⟨rem', rfl⟩ : ∃ rem', rem = rem' + 1 := ⟨rem - 1, by omega⟩
    have hexec := flakyNode_execute_fails r s0 f s.next_step
      (by simp only [NeuralState.next_step]; omega)
    simp only [attemptNode, hexec]
    rw [ih rem' (ret + 1) _ (by omega) (by omega)
      (by simp only [NeuralState.add_error, NeuralState.next_step]; omega)]
    simp [NeuralState.add_error, NeuralState.next_step, List.range'_succ, PyErr.toMessage,
      nodeExecutionRecord]

theorem attemptNode_flaky_fails (r s0 : Nat) (f : NeuralState → NeuralState) :
    ∀ (rem ret : Nat) (s : NeuralState), s.step = s0 + ret → ret + rem < r →
      attemptNode (flakyNode r s0 f) "n" rem ret s =
        ({ s with step := s0 + ret + rem + 1
                  errors := s.errors ++ (List.range' ret (rem + 1)).map nodeExecutionRecord },
          some (.nodeExc "boom")) := by
  intro rem
  induction rem with
  | zero =>
    intro ret s hstep hlt
    have hexec := flakyNode_execute_fails r s0 f s.next_step
      (by simp only [NeuralState.next_step]; omega)
    simp only [attemptNode, hexec]
    simp [NeuralState.add_error, NeuralState.next_step, hstep, PyErr.toMessage,
      nodeExecutionRecord, List.range'_succ, List.range']
  | succ rem' ih =>
    intro ret s hstep hlt
    have hexec := flakyNode_execute_fails r s0 f s.next_step
      (by simp only [NeuralState.next_step]; omega)
    have harith : s0 + (ret + 1) + rem' + 1 = s0 + ret + (rem' + 1) + 1 := by omega
    simp only [attemptNode, hexec]
    rw [ih (ret + 1) _ (by simp only [NeuralState.add_error, NeuralState.next_step]; omega)
      (by omega)]
    simp [NeuralState.add_error, NeuralState.next_step, harith, List.range'_succ,
      PyErr.toMessage, nodeExecutionRecord]

theorem execLoop_step (g : NeuralGraphEngine) (elapsed : Nat → Rat) (fuel : Nat)
    (current : String) (visited : List String) (iter : Nat) (s s1 : NeuralState)
    (node : BaseNode)
    (hnv : visited.contains current = false)
    (hn : dictGet g.nodes current = some node)
    (hatt : attemptNode node current g.max_retries 0 s = (s1, Option.none)) :
    execLoop g elapsed (fuel + 1) (some current) visited iter s =
      (s1, .raised (.attributeError "MAX_EXECUTION_TIME")) := by
  have hattr : settings.intAttr "MAX_EXECUTION_TIME" =
      .error (.attributeError "MAX_EXECUTION_TIME") := rfl
  simp only [execLoop, hnv, Bool.false_eq_true, if_false, hn, hatt, hattr]

theorem execLoop_step_raise (g : NeuralGraphEngine) (elapsed : Nat → Rat) (fuel : Nat)
    (current : String) (visited : List String) (iter : Nat) (s s1 : NeuralState)
    (node : BaseNode) (e : PyErr)
    (hnv : visited.contains current = false)
    (hn : dictGet g.nodes current = some node)
    (hatt : attemptNode node current g.max_retries 0 s = (s1, some e)) :
    execLoop g elapsed (fuel + 1) (some current) visited iter s = (s1, .raised e) := by
  simp only [execLoop, hnv, Bool.false_eq_true, if_false, hn, hatt]

/-- Claim C4: a node failing its first `r` invocations.  With `max_retries =
M ≥ r`, executing it appends exactly `r` `node_execution` records (node name
and retry count 0..r-1, in order), increments `step` once per attempt —
`r + 1` times, each before the invocation, so the successful invocation sees
`step = s.step + r + 1` — and applies the successful mutation `f` exactly
once.  With `M < r`, exactly `M + 1` attempts run (appending `M + 1`
records), the node's failure propagates to the caller, and the successor
node never executes: the result does not depend on the second node's
mutation `h`. -/
theorem node_retry_property (r M : Nat) (f h : NeuralState → NeuralState)
    (s : NeuralState) (elapsed : Nat → Rat) :
    (r ≤ M →
      NeuralGraphEngine.execute ⟨[("n", flakyNode r s.step f)], [], some "n", M⟩ elapsed s =
        (f { s with step := s.step + r + 1
                    errors := s.errors ++ (List.range r).map nodeExecutionRecord },
          .raised (.attributeError "MAX_EXECUTION_TIME"))) ∧
    (M < r →
      NeuralGraphEngine.execute
          ⟨[("n", flakyNode r s.step f), ("m", ⟨"m", fun t => .ok (h t)⟩)],
            [⟨"n", "m", Option.none⟩], some "n", M⟩ elapsed s =
        ({ s with step := s.step + M + 1
                  errors := s.errors ++ (List.range (M + 1)).map nodeExecutionRecord },
          .raised (.nodeExc "boom"))) := by
  constructor
  · intro hrm
    rw [List.range_eq_range']
    exact execLoop_step ⟨[("n", flakyNode r s.step f)], [], some "n", M⟩ elapsed 1 "n" [] 0 s _
      (flakyNode r s.step f) rfl rfl
      (attemptNode_flaky_succeeds r s.step f r M 0 s (by omega) hrm rfl)
  · intro hmr
    rw [List.range_eq_range']
    exact execLoop_step_raise
      ⟨[("n", flakyNode r s.step f), ("m", ⟨"m", fun t => .ok (h t)⟩)],
        [⟨"n", "m", Option.none⟩], some "n", M⟩ elapsed 2 "n" [] 0 s _
      (flakyNode r s.step f) _ rfl rfl
      (attemptNode_flaky_fails r s.step f M 0 s rfl (by omega))

/-- A mutation recording the flaky node's eventual success. -/
def demoMut : NeuralState → NeuralState :=
  fun t => t.add_artifact "out" (.vstr "done") Option.none Option.none

/-- A mutation recording that the successor node ran. -/
def demoMut2 : NeuralState → NeuralState :=
  fun t => t.add_artifact "m_ran" (.vbool true) Option.none Option.none

/-- Closed witness for `node_retry_property`: 2 failures within
`max_retries = 3`, and 9 failures exhausting `max_retries = 3`. -/
theorem node_retry_property_witness :
    (NeuralGraphEngine.execute ⟨[("n", flakyNode 2 demoState.step demoMut)], [], some "n", 3⟩
        (fun _ => 0) demoState =
      (demoMut { demoState with
                  step := demoState.step + 2 + 1
                  errors := demoState.errors ++ (List.range 2).map nodeExecutionRecord },
        .raised (.attributeError "MAX_EXECUTION_TIME"))) ∧
    (NeuralGraphEngine.execute
        ⟨[("n", flakyNode 9 demoState.step demoMut), ("m", ⟨"m", fun t => .ok (demoMut2 t)⟩)],
          [⟨"n", "m", Option.none⟩], some "n", 3⟩ (fun _ => 0) demoState =
      ({ demoState with
          step := demoState.step + 3 + 1
          errors := demoState.errors ++ (List.range (3 + 1)).map nodeExecutionRecord },
        .raised (.nodeExc "boom"))) :=
  ⟨(node_retry_property 2 3 demoMut demoMut2 demoState (fun _ => 0)).1 (by decide),
   (node_retry_property 9 3 demoMut demoMut2 demoState (fun _ => 0)).2 (by decide)⟩

end Hive
